import Mathlib

/-!
Verification of `gal_radii_pb.py` (deprojected galactocentric distance).

The repository is a single pure function `correct_rgc(coord, glx_ctr, glx_PA,
glx_incl, glx_dist, deproject)` built from trigonometric steps.  We embed it
shallowly over the real numbers.  Angles are represented in radians; astropy's
unit conversions (`.arcsec`, `.arcmin`, `Angle(_, unit=u.arcmin).radian`)
become multiplications by explicit conversion constants.

Two models are developed:

* a real-valued model (`correct_rgc`, returning a value/unit pair mirroring
  `astropy.coordinates.Distance`), used for the algebraic claims on
  non-degenerate inputs; and
* an extended-value model (`correct_rgcE`) over `RVal` — exact real numbers
  extended with `inf`, `ninf` and `nan` following IEEE-754 special-value
  propagation — which captures what the numpy code does at the singular
  inputs (0/0 in the arctangent at the centre, y/0 on the minor axis,
  division by `cos 90° = 0` in the deprojection step).
-/

noncomputable section

namespace GalRadii

/-- Sky coordinate (models `astropy.coordinates.SkyCoord`): right ascension
and declination, both stored in radians. -/
structure SkyCoordR where
  ra : ℝ
  dec : ℝ

/-- Physical distance with a unit tag (models `astropy.coordinates.Distance`:
a value together with its unit). -/
structure DistanceQ where
  val : ℝ
  unit : String

/-- Arcseconds per radian: the factor applied by astropy's `.arcsec`. -/
def arcsecPerRad : ℝ := 648000 / Real.pi

/-- Arcminutes per radian: the factor applied by astropy's `.arcmin`. -/
def arcminPerRad : ℝ := 10800 / Real.pi

/-- Radians per arcminute: the factor applied by
`Angle(v, unit=u.arcmin).radian`. -/
def radPerArcmin : ℝ := Real.pi / 10800

/-- Great-circle angular separation between two sky points, modelling
astropy's `SkyCoord.separation` (an external collaborator of the source):
the spherical law of cosines, whose exact-real value agrees with astropy's
Vincenty formula and lies in `[0, π]`. -/
def separation (a b : SkyCoordR) : ℝ :=
  Real.arccos (Real.sin a.dec * Real.sin b.dec +
    Real.cos a.dec * Real.cos b.dec * Real.cos (a.ra - b.ra))

/-- Source line `sky_radius = glx_ctr.separation(coord)`. -/
def sky_radius (coord glx_ctr : SkyCoordR) : ℝ := separation glx_ctr coord

/-- Source line `avg_dec = 0.5 * (glx_ctr.dec + coord.dec).radian`. -/
def avg_dec (coord glx_ctr : SkyCoordR) : ℝ := 0.5 * (glx_ctr.dec + coord.dec)

/-- Source line `x = (glx_ctr.ra - coord.ra) * np.cos(avg_dec)`. -/
def x_off (coord glx_ctr : SkyCoordR) : ℝ :=
  (glx_ctr.ra - coord.ra) * Real.cos (avg_dec coord glx_ctr)

/-- Source line `y = glx_ctr.dec - coord.dec`. -/
def y_off (coord glx_ctr : SkyCoordR) : ℝ := glx_ctr.dec - coord.dec

/-- Source line
`phi = glx_PA - Angle('90d') + Angle(np.arctan(y.arcsec / x.arcsec), u.rad)`:
the `.arcsec` accessors multiply each angle by `arcsecPerRad` before the
quotient is taken. -/
def phi (coord glx_ctr : SkyCoordR) (glx_PA : ℝ) : ℝ :=
  glx_PA - Real.pi / 2 +
    Real.arctan ((y_off coord glx_ctr * arcsecPerRad) /
      (x_off coord glx_ctr * arcsecPerRad))

/-- Source line `xp = (sky_radius * np.cos(phi.radian)).arcmin`. -/
def xp (coord glx_ctr : SkyCoordR) (glx_PA : ℝ) : ℝ :=
  sky_radius coord glx_ctr * Real.cos (phi coord glx_ctr glx_PA) * arcminPerRad

/-- Source line `yp = (sky_radius * np.sin(phi.radian)).arcmin`. -/
def yp (coord glx_ctr : SkyCoordR) (glx_PA : ℝ) : ℝ :=
  sky_radius coord glx_ctr * Real.sin (phi coord glx_ctr glx_PA) * arcminPerRad

/-- Source lines `if deproject: ypp = yp / np.cos(glx_incl.radian)`
`else: ypp = yp`. -/
def ypp (coord glx_ctr : SkyCoordR) (glx_PA glx_incl : ℝ) (deproject : Bool) : ℝ :=
  if deproject then yp coord glx_ctr glx_PA / Real.cos glx_incl
  else yp coord glx_ctr glx_PA

/-- Source line `obj_radius = np.sqrt(xp ** 2 + ypp ** 2)` (in arcmin). -/
def obj_radius (coord glx_ctr : SkyCoordR) (glx_PA glx_incl : ℝ)
    (deproject : Bool) : ℝ :=
  Real.sqrt (xp coord glx_ctr glx_PA ^ 2 +
    ypp coord glx_ctr glx_PA glx_incl deproject ^ 2)

/-- Numeric value of the returned distance, in units of `glx_dist`: source
line `Angle(obj_radius, unit=u.arcmin).radian * glx_dist`. -/
def correct_rgcVal (coord glx_ctr : SkyCoordR) (glx_PA glx_incl glx_dist : ℝ)
    (deproject : Bool) : ℝ :=
  obj_radius coord glx_ctr glx_PA glx_incl deproject * radPerArcmin * glx_dist

/-- The full return value of `correct_rgc`: source line
`obj_dist = Distance(Angle(obj_radius, unit=u.arcmin).radian * glx_dist,
unit=glx_dist.unit)`. -/
def correct_rgc (coord glx_ctr : SkyCoordR) (glx_PA glx_incl : ℝ)
    (glx_dist : DistanceQ) (deproject : Bool) : DistanceQ :=
  ⟨correct_rgcVal coord glx_ctr glx_PA glx_incl glx_dist.val deproject,
   glx_dist.unit⟩

/-- The specification's design-level pipeline (§4.1 of the spec), written
from the spec's step descriptions: great-circle separation; small-angle
offsets `x = (center.RA − coord.RA)·cos(mean_Dec)` and
`y = center.Dec − coord.Dec`; `phi = position_angle − 90° + arctan (y/x)`;
rotated components `x' = sep·cos(phi)` and `y' = sep·sin(phi)` in arcminutes;
`y'' = y'/cos(inclination)` when deprojecting; `radius = sqrt(x'^2 + y''^2)`;
result `= radius-in-radians × distance`, carrying the distance's unit. -/
def specDesignResult (coord center : SkyCoordR) (position_angle inclination : ℝ)
    (distance : DistanceQ) (deproject : Bool) : DistanceQ :=
  let sep := separation center coord
  let mean_dec := (center.dec + coord.dec) / 2
  let xs := (center.ra - coord.ra) * Real.cos mean_dec
  let ys := center.dec - coord.dec
  let phis := position_angle - Real.pi / 2 + Real.arctan (ys / xs)
  let xrot := sep * Real.cos phis * arcminPerRad
  let yrot := sep * Real.sin phis * arcminPerRad
  let ycorr := if deproject then yrot / Real.cos inclination else yrot
  let radius_arcmin := Real.sqrt (xrot ^ 2 + ycorr ^ 2)
  ⟨radius_arcmin * radPerArcmin * distance.val, distance.unit⟩

lemma arcsecPerRad_pos : 0 < arcsecPerRad := by
  unfold arcsecPerRad
  positivity

lemma arcminPerRad_pos : 0 < arcminPerRad := by
  unfold arcminPerRad
  positivity

lemma radPerArcmin_pos : 0 < radPerArcmin := by
  unfold radPerArcmin
  positivity

/-- The ratio fed to the arctangent is unchanged by the `.arcsec` scaling:
`(y·c)/(x·c) = y/x` — including the degenerate case `x = 0`, where both
sides are Lean's junk value for division by zero. -/
lemma ratio_arcsec_eq (coord glx_ctr : SkyCoordR) :
    (y_off coord glx_ctr * arcsecPerRad) / (x_off coord glx_ctr * arcsecPerRad) =
      y_off coord glx_ctr / x_off coord glx_ctr := by
  exact mul_div_mul_right _ _ (ne_of_gt arcsecPerRad_pos)

/-- C1: the value returned by `correct_rgc` coincides, on every input, with
the composition of the spec's design-level steps (separation, small-angle
offsets, two-quadrant arctangent, rotation into the disk frame in arcminutes,
optional `1/cos` stretch, Euclidean radius, small-angle conversion to a
physical length carrying the distance's unit). -/
theorem c1_matches_spec_pipeline (coord glx_ctr : SkyCoordR)
    (glx_PA glx_incl : ℝ) (glx_dist : DistanceQ) (deproject : Bool) :
    correct_rgc coord glx_ctr glx_PA glx_incl glx_dist deproject =
      specDesignResult coord glx_ctr glx_PA glx_incl glx_dist deproject := by
  have h1 := ratio_arcsec_eq coord glx_ctr
  have h2 : (0.5 : ℝ) * (glx_ctr.dec + coord.dec) = (glx_ctr.dec + coord.dec) / 2 := by
    ring
  simp only [correct_rgc, specDesignResult, correct_rgcVal, obj_radius, xp, yp, ypp,
    phi, sky_radius, h1]
  simp only [x_off, y_off, avg_dec, h2]

/-- Extended value: an exact real (`fin`), positive or negative infinity, or
NaN.  This models the IEEE-754 special values that the numpy code produces at
singular inputs, while keeping the finite arithmetic exact. -/
inductive RVal where
  | fin : ℝ → RVal
  | inf : RVal
  | ninf : RVal
  | nan : RVal

namespace RVal

/-- Whether an extended value is an ordinary finite number. -/
def isFin : RVal → Bool
  | fin _ => true
  | _ => false

/-- IEEE-754 addition on extended values. -/
def add : RVal → RVal → RVal
  | nan, _ => nan
  | _, nan => nan
  | fin a, fin b => fin (a + b)
  | inf, ninf => nan
  | ninf, inf => nan
  | inf, _ => inf
  | _, inf => inf
  | ninf, _ => ninf
  | _, ninf => ninf

/-- IEEE-754 multiplication on extended values (`±∞ · 0 = NaN`). -/
def mul : RVal → RVal → RVal
  | nan, _ => nan
  | _, nan => nan
  | fin a, fin b => fin (a * b)
  | inf, inf => inf
  | inf, ninf => ninf
  | ninf, inf => ninf
  | ninf, ninf => inf
  | inf, fin b => if 0 < b then inf else if b < 0 then ninf else nan
  | ninf, fin b => if 0 < b then ninf else if b < 0 then inf else nan
  | fin a, inf => if 0 < a then inf else if a < 0 then ninf else nan
  | fin a, ninf => if 0 < a then ninf else if a < 0 then inf else nan

/-- IEEE-754 division on extended values (`0/0 = NaN`, `±y/0 = ±∞`). -/
def div : RVal → RVal → RVal
  | nan, _ => nan
  | _, nan => nan
  | fin a, fin b =>
      if b = 0 then (if 0 < a then inf else if a < 0 then ninf else nan)
      else fin (a / b)
  | fin _, inf => fin 0
  | fin _, ninf => fin 0
  | inf, fin b => if 0 ≤ b then inf else ninf
  | ninf, fin b => if 0 ≤ b then ninf else inf
  | inf, inf => nan
  | inf, ninf => nan
  | ninf, inf => nan
  | ninf, ninf => nan

/-- IEEE-754 square root (`sqrt` of a negative number or of `-∞` is NaN). -/
def sqrt : RVal → RVal
  | nan => nan
  | inf => inf
  | ninf => nan
  | fin a => if a < 0 then nan else fin (Real.sqrt a)

/-- Sine on extended values (`sin(±∞) = NaN`, as in numpy). -/
def sin : RVal → RVal
  | fin a => fin (Real.sin a)
  | _ => nan

/-- Cosine on extended values (`cos(±∞) = NaN`, as in numpy). -/
def cos : RVal → RVal
  | fin a => fin (Real.cos a)
  | _ => nan

/-- Arctangent on extended values: `arctan(±∞) = ±π/2`, as in numpy. -/
def arctan : RVal → RVal
  | fin a => fin (Real.arctan a)
  | inf => fin (Real.pi / 2)
  | ninf => fin (-(Real.pi / 2))
  | nan => nan

@[simp] lemma nan_add (v : RVal) : add nan v = nan := by cases v <;> rfl

@[simp] lemma add_nan (v : RVal) : add v nan = nan := by cases v <;> rfl

@[simp] lemma add_fin_fin (a b : ℝ) : add (fin a) (fin b) = fin (a + b) := rfl

@[simp] lemma fin_add_inf (a : ℝ) : add (fin a) inf = inf := rfl

@[simp] lemma nan_mul (v : RVal) : mul nan v = nan := by cases v <;> rfl

@[simp] lemma mul_nan (v : RVal) : mul v nan = nan := by cases v <;> rfl

@[simp] lemma mul_fin_fin (a b : ℝ) : mul (fin a) (fin b) = fin (a * b) := rfl

@[simp] lemma nan_div (v : RVal) : div nan v = nan := by cases v <;> rfl

@[simp] lemma div_nan (v : RVal) : div v nan = nan := by cases v <;> rfl

@[simp] lemma sqrt_nan : sqrt nan = nan := rfl

@[simp] lemma sqrt_inf : sqrt inf = inf := rfl

@[simp] lemma sin_nan : sin nan = nan := rfl

@[simp] lemma cos_nan : cos nan = nan := rfl

@[simp] lemma arctan_nan : arctan nan = nan := rfl

@[simp] lemma arctan_inf : arctan inf = fin (Real.pi / 2) := rfl

@[simp] lemma arctan_ninf : arctan ninf = fin (-(Real.pi / 2)) := rfl

@[simp] lemma sin_fin (a : ℝ) : sin (fin a) = fin (Real.sin a) := rfl

@[simp] lemma cos_fin (a : ℝ) : cos (fin a) = fin (Real.cos a) := rfl

@[simp] lemma arctan_fin (a : ℝ) : arctan (fin a) = fin (Real.arctan a) := rfl

lemma div_fin_fin_of_ne (a : ℝ) {b : ℝ} (hb : b ≠ 0) :
    div (fin a) (fin b) = fin (a / b) := by
  simp [div, hb]

lemma div_fin_zero_of_neg {a : ℝ} (ha : a < 0) :
    div (fin a) (fin 0) = ninf := by
  simp [div, ha, asymm ha]

lemma div_fin_zero_of_pos {a : ℝ} (ha : 0 < a) :
    div (fin a) (fin 0) = inf := by
  simp [div, ha]

@[simp] lemma div_zero_zero : div (fin 0) (fin 0) = nan := by
  simp [div]

lemma sqrt_fin_of_nonneg {a : ℝ} (ha : 0 ≤ a) :
    sqrt (fin a) = fin (Real.sqrt a) := by
  simp [sqrt, not_lt.mpr ha]

/-- Division by the finite value one is the identity on every extended
value, as in IEEE-754 arithmetic. -/
lemma div_fin_one (v : RVal) : div v (fin 1) = v := by
  cases v <;> simp [div]

end RVal

/-- Extended-value version of the ratio `y.arcsec / x.arcsec` fed to the
arctangent: with IEEE-754 semantics it is `±∞` when `x = 0 ≠ y` and NaN when
`x = y = 0`. -/
def ratioE (coord glx_ctr : SkyCoordR) : RVal :=
  RVal.div (RVal.fin (y_off coord glx_ctr * arcsecPerRad))
    (RVal.fin (x_off coord glx_ctr * arcsecPerRad))

/-- Extended-value version of the source's arctangent step
`Angle(np.arctan(y.arcsec / x.arcsec), unit=u.rad)`. -/
def atanStepE (coord glx_ctr : SkyCoordR) : RVal :=
  RVal.arctan (ratioE coord glx_ctr)

/-- Extended-value version of `phi`. -/
def phiE (coord glx_ctr : SkyCoordR) (glx_PA : ℝ) : RVal :=
  RVal.add (RVal.fin (glx_PA - Real.pi / 2)) (atanStepE coord glx_ctr)

/-- Extended-value version of `xp`. -/
def xpE (coord glx_ctr : SkyCoordR) (glx_PA : ℝ) : RVal :=
  RVal.mul
    (RVal.mul (RVal.fin (sky_radius coord glx_ctr))
      (RVal.cos (phiE coord glx_ctr glx_PA)))
    (RVal.fin arcminPerRad)

/-- Extended-value version of `yp`. -/
def ypE (coord glx_ctr : SkyCoordR) (glx_PA : ℝ) : RVal :=
  RVal.mul
    (RVal.mul (RVal.fin (sky_radius coord glx_ctr))
      (RVal.sin (phiE coord glx_ctr glx_PA)))
    (RVal.fin arcminPerRad)

/-- Extended-value version of `ypp`. -/
def yppE (coord glx_ctr : SkyCoordR) (glx_PA glx_incl : ℝ)
    (deproject : Bool) : RVal :=
  if deproject then
    RVal.div (ypE coord glx_ctr glx_PA) (RVal.fin (Real.cos glx_incl))
  else ypE coord glx_ctr glx_PA

/-- Extended-value version of `obj_radius`. -/
def obj_radiusE (coord glx_ctr : SkyCoordR) (glx_PA glx_incl : ℝ)
    (deproject : Bool) : RVal :=
  RVal.sqrt (RVal.add
    (RVal.mul (xpE coord glx_ctr glx_PA) (xpE coord glx_ctr glx_PA))
    (RVal.mul (yppE coord glx_ctr glx_PA glx_incl deproject)
      (yppE coord glx_ctr glx_PA glx_incl deproject)))

/-- Extended-value version of the returned numeric distance. -/
def correct_rgcE (coord glx_ctr : SkyCoordR) (glx_PA glx_incl glx_dist : ℝ)
    (deproject : Bool) : RVal :=
  RVal.mul
    (RVal.mul (obj_radiusE coord glx_ctr glx_PA glx_incl deproject)
      (RVal.fin radPerArcmin))
    (RVal.fin glx_dist)

/-- Arctangent of a quotient of finite extended values is finite or NaN,
never infinite. -/
lemma arctan_div_fin_cases (a b : ℝ) :
    (∃ r, RVal.arctan (RVal.div (RVal.fin a) (RVal.fin b)) = RVal.fin r) ∨
      RVal.arctan (RVal.div (RVal.fin a) (RVal.fin b)) = RVal.nan := by
  by_cases hb : b = 0
  · subst hb
    rcases lt_trichotomy a 0 with ha | ha | ha
    · exact Or.inl ⟨_, by rw [RVal.div_fin_zero_of_neg ha, RVal.arctan_ninf]⟩
    · subst ha
      exact Or.inr (by rw [RVal.div_zero_zero, RVal.arctan_nan])
    · exact Or.inl ⟨_, by rw [RVal.div_fin_zero_of_pos ha, RVal.arctan_inf]⟩
  · exact Or.inl ⟨_, by rw [RVal.div_fin_fin_of_ne _ hb, RVal.arctan_fin]⟩

/-- The azimuthal-angle step yields a finite value or NaN. -/
lemma phiE_cases (coord glx_ctr : SkyCoordR) (glx_PA : ℝ) :
    (∃ a, phiE coord glx_ctr glx_PA = RVal.fin a) ∨
      phiE coord glx_ctr glx_PA = RVal.nan := by
  unfold phiE atanStepE ratioE
  rcases arctan_div_fin_cases (y_off coord glx_ctr * arcsecPerRad)
      (x_off coord glx_ctr * arcsecPerRad) with ⟨r, hr⟩ | hr
  · exact Or.inl ⟨_, by rw [hr, RVal.add_fin_fin]⟩
  · exact Or.inr (by rw [hr, RVal.add_nan])

/-- The rotated minor-axis component is a finite value or NaN. -/
lemma ypE_cases (coord glx_ctr : SkyCoordR) (glx_PA : ℝ) :
    (∃ a, ypE coord glx_ctr glx_PA = RVal.fin a) ∨
      ypE coord glx_ctr glx_PA = RVal.nan := by
  unfold ypE
  rcases phiE_cases coord glx_ctr glx_PA with ⟨a, ha⟩ | ha <;> rw [ha]
  · exact Or.inl ⟨_, by rw [RVal.sin_fin, RVal.mul_fin_fin, RVal.mul_fin_fin]⟩
  · exact Or.inr (by rw [RVal.sin_nan, RVal.mul_nan, RVal.nan_mul])

/-- The rotated major-axis component is a finite value or NaN. -/
lemma xpE_cases (coord glx_ctr : SkyCoordR) (glx_PA : ℝ) :
    (∃ a, xpE coord glx_ctr glx_PA = RVal.fin a) ∨
      xpE coord glx_ctr glx_PA = RVal.nan := by
  unfold xpE
  rcases phiE_cases coord glx_ctr glx_PA with ⟨a, ha⟩ | ha <;> rw [ha]
  · exact Or.inl ⟨_, by rw [RVal.cos_fin, RVal.mul_fin_fin, RVal.mul_fin_fin]⟩
  · exact Or.inr (by rw [RVal.cos_nan, RVal.mul_nan, RVal.nan_mul])

/-- Multiplying a non-finite extended value by a finite one never yields a
finite value. -/
lemma mul_fin_notFin {v : RVal} (h : v.isFin = false) (d : ℝ) :
    (RVal.mul v (RVal.fin d)).isFin = false := by
  cases v with
  | fin a => simp [RVal.isFin] at h
  | inf =>
      show (RVal.mul RVal.inf (RVal.fin d)).isFin = false
      rw [show RVal.mul RVal.inf (RVal.fin d) =
        if 0 < d then RVal.inf else if d < 0 then RVal.ninf else RVal.nan from rfl]
      split_ifs <;> rfl
  | ninf =>
      show (RVal.mul RVal.ninf (RVal.fin d)).isFin = false
      rw [show RVal.mul RVal.ninf (RVal.fin d) =
        if 0 < d then RVal.ninf else if d < 0 then RVal.inf else RVal.nan from rfl]
      split_ifs <;> rfl
  | nan => rfl

/-- Evaluation of the pipeline when the input coordinate equals the galaxy
centre exactly: both small-angle offsets vanish, the arctangent is fed
`0/0 = NaN`, and the NaN propagates through every later step, for every
position angle, inclination, distance and deprojection flag. -/
lemma rgcE_center_nan (glx_ctr : SkyCoordR)
    (glx_PA glx_incl glx_dist : ℝ) (deproject : Bool) :
    correct_rgcE glx_ctr glx_ctr glx_PA glx_incl glx_dist deproject =
      RVal.nan := by
  have hx : x_off glx_ctr glx_ctr = 0 := by simp [x_off]
  have hy : y_off glx_ctr glx_ctr = 0 := by simp [y_off]
  cases deproject <;>
    simp [correct_rgcE, obj_radiusE, yppE, ypE, xpE, phiE, atanStepE, ratioE,
      hx, hy]

/-- C2 evaluation: when the input coordinate equals the galaxy centre
exactly, both small-angle offsets vanish, the arctangent is fed `0/0 = NaN`,
and the NaN propagates through every later step: the code returns NaN for
every position angle, inclination, distance and deprojection flag — not 0 as
the spec's identity property demands. -/
theorem c2_center_returns_nan (glx_ctr : SkyCoordR)
    (glx_PA glx_incl glx_dist : ℝ) (deproject : Bool) :
    correct_rgcE glx_ctr glx_ctr glx_PA glx_incl glx_dist deproject =
      RVal.nan :=
  rgcE_center_nan glx_ctr glx_PA glx_incl glx_dist deproject

/-- C3: with inclination exactly 90° and `deproject = true`, the minor-axis
component is divided by `cos 90° = 0`, so the returned value is `±∞` or NaN:
a well-defined numeric sentinel, never an ordinary finite value and never a
crash — for every input coordinate, centre, position angle and distance. -/
theorem c3_incl90_never_finite (coord glx_ctr : SkyCoordR)
    (glx_PA glx_dist : ℝ) :
    (correct_rgcE coord glx_ctr glx_PA (Real.pi / 2) glx_dist true).isFin =
      false := by
  have hc : Real.cos (Real.pi / 2) = 0 := Real.cos_pi_div_two
  have hrad : (RVal.mul (obj_radiusE coord glx_ctr glx_PA (Real.pi / 2) true)
      (RVal.fin radPerArcmin)).isFin = false := by
    have hsq : RVal.mul (yppE coord glx_ctr glx_PA (Real.pi / 2) true)
        (yppE coord glx_ctr glx_PA (Real.pi / 2) true) = RVal.inf ∨
        RVal.mul (yppE coord glx_ctr glx_PA (Real.pi / 2) true)
        (yppE coord glx_ctr glx_PA (Real.pi / 2) true) = RVal.nan := by
      rcases ypE_cases coord glx_ctr glx_PA with ⟨a, ha⟩ | ha <;>
        simp only [yppE, if_true, ha, hc]
      · rcases lt_trichotomy a 0 with h0 | h0 | h0
        · rw [RVal.div_fin_zero_of_neg h0]
          exact Or.inl rfl
        · subst h0
          rw [RVal.div_zero_zero]
          exact Or.inr rfl
        · rw [RVal.div_fin_zero_of_pos h0]
          exact Or.inl rfl
      · rw [RVal.nan_div, RVal.nan_mul]
        exact Or.inr rfl
    have hobj : obj_radiusE coord glx_ctr glx_PA (Real.pi / 2) true = RVal.inf ∨
        obj_radiusE coord glx_ctr glx_PA (Real.pi / 2) true = RVal.nan := by
      unfold obj_radiusE
      rcases hsq with h | h <;> rw [h]
      · rcases xpE_cases coord glx_ctr glx_PA with ⟨b, hb⟩ | hb <;> rw [hb]
        · rw [RVal.mul_fin_fin, RVal.fin_add_inf, RVal.sqrt_inf]
          exact Or.inl rfl
        · rw [RVal.nan_mul, RVal.nan_add, RVal.sqrt_nan]
          exact Or.inr rfl
      · rw [RVal.add_nan, RVal.sqrt_nan]
        exact Or.inr rfl
    rcases hobj with h | h <;> rw [h]
    · rw [show RVal.mul RVal.inf (RVal.fin radPerArcmin) =
        if 0 < radPerArcmin then RVal.inf
        else if radPerArcmin < 0 then RVal.ninf else RVal.nan from rfl,
        if_pos radPerArcmin_pos]
      rfl
    · rw [RVal.nan_mul]
      rfl
  exact mul_fin_notFin hrad glx_dist

/-- C6: at inclination exactly 0 the deprojection step divides by
`cos 0 = 1`, so `deproject = true` and `deproject = false` return identical
values on every input — including the singular ones, where both sides carry
the same special value. -/
theorem c6_zero_inclination_noop (coord glx_ctr : SkyCoordR)
    (glx_PA glx_dist : ℝ) :
    correct_rgcE coord glx_ctr glx_PA 0 glx_dist true =
      correct_rgcE coord glx_ctr glx_PA 0 glx_dist false := by
  simp [correct_rgcE, obj_radiusE, yppE, Real.cos_zero, RVal.div_fin_one]

/-- C8: with `deproject = false` the inclination argument is never read, so
two calls differing only in inclination return exactly the same value. -/
theorem c8_projected_ignores_inclination (coord glx_ctr : SkyCoordR)
    (glx_PA glx_incl glx_incl' glx_dist : ℝ) :
    correct_rgcE coord glx_ctr glx_PA glx_incl glx_dist false =
      correct_rgcE coord glx_ctr glx_PA glx_incl' glx_dist false := rfl

/-- Galaxy centre used for concrete edge-case inputs: the origin of
coordinates. -/
def ctrAxis : SkyCoordR := ⟨0, 0⟩

/-- Target exactly on the minor axis of `ctrAxis`: same right ascension,
declination larger by 0.1° (`π/1800` radians). -/
def tgtAxis : SkyCoordR := ⟨0, Real.pi / 1800⟩

/-- Target 0.1° away from `ctrAxis` in right ascension, at declination 0. -/
def tgtMajor : SkyCoordR := ⟨-(Real.pi / 1800), 0⟩

/-- C4 counterexample: for the concrete on-minor-axis target `tgtAxis`
(same RA as the centre, so the small-angle offset `x` is exactly zero), the
arctangent step completes and returns an ordinary finite value — it does not
raise and does not return an infinity/NaN sentinel, contrary to the claim. -/
theorem c4_counterexample :
    x_off tgtAxis ctrAxis = 0 ∧ (atanStepE tgtAxis ctrAxis).isFin = true := by
  have hx : x_off tgtAxis ctrAxis = 0 := by
    simp [x_off, tgtAxis, ctrAxis]
  refine ⟨hx, ?_⟩
  have hy : y_off tgtAxis ctrAxis * arcsecPerRad < 0 := by
    have h1 : y_off tgtAxis ctrAxis = -(Real.pi / 1800) := by
      simp [y_off, tgtAxis, ctrAxis]
    rw [h1]
    have := Real.pi_pos
    have := arcsecPerRad_pos
    nlinarith
  unfold atanStepE ratioE
  rw [hx, zero_mul, RVal.div_fin_zero_of_neg hy, RVal.arctan_ninf]
  rfl

/-- C4 amended: when the small-angle offset `x` is exactly zero, the division
inside the arctangent step yields the IEEE sentinel `±∞` (NaN when `y` is
also zero), and the arctangent then silently maps it to the ordinary limiting
value `±π/2` (NaN stays NaN); the step never raises. -/
theorem c4_amended (coord glx_ctr : SkyCoordR)
    (hx : x_off coord glx_ctr = 0) :
    (0 < y_off coord glx_ctr →
        atanStepE coord glx_ctr = RVal.fin (Real.pi / 2)) ∧
      (y_off coord glx_ctr < 0 →
        atanStepE coord glx_ctr = RVal.fin (-(Real.pi / 2))) ∧
      (y_off coord glx_ctr = 0 → atanStepE coord glx_ctr = RVal.nan) := by
  unfold atanStepE ratioE
  rw [hx, zero_mul]
  refine ⟨fun hy => ?_, fun hy => ?_, fun hy => ?_⟩
  · rw [RVal.div_fin_zero_of_pos (mul_pos hy arcsecPerRad_pos), RVal.arctan_inf]
  · rw [RVal.div_fin_zero_of_neg (mul_neg_of_neg_of_pos hy arcsecPerRad_pos),
      RVal.arctan_ninf]
  · rw [hy, zero_mul, RVal.div_zero_zero, RVal.arctan_nan]

/-- Witness for the amended C4 at the concrete on-minor-axis target. -/
theorem c4_amended_witness :
    x_off tgtAxis ctrAxis = 0 ∧
      ((0 < y_off tgtAxis ctrAxis →
          atanStepE tgtAxis ctrAxis = RVal.fin (Real.pi / 2)) ∧
        (y_off tgtAxis ctrAxis < 0 →
          atanStepE tgtAxis ctrAxis = RVal.fin (-(Real.pi / 2))) ∧
        (y_off tgtAxis ctrAxis = 0 → atanStepE tgtAxis ctrAxis = RVal.nan)) :=
  ⟨by simp [x_off, tgtAxis, ctrAxis],
   c4_amended tgtAxis ctrAxis (by simp [x_off, tgtAxis, ctrAxis])⟩

lemma sky_radius_tgtMajor : sky_radius tgtMajor ctrAxis = Real.pi / 1800 := by
  unfold sky_radius separation ctrAxis tgtMajor
  have h : Real.sin (0:ℝ) * Real.sin (0:ℝ) +
      Real.cos (0:ℝ) * Real.cos (0:ℝ) * Real.cos ((0:ℝ) - -(Real.pi / 1800)) =
      Real.cos (Real.pi / 1800) := by
    simp
  rw [h]
  have hπ := Real.pi_pos
  exact Real.arccos_cos (by positivity) (by linarith)

lemma phi_tgtMajor : phi tgtMajor ctrAxis Real.pi = Real.pi / 2 := by
  unfold phi y_off x_off avg_dec ctrAxis tgtMajor
  norm_num
  ring

lemma yp_tgtMajor : yp tgtMajor ctrAxis Real.pi = 6 := by
  unfold yp
  rw [sky_radius_tgtMajor, phi_tgtMajor, Real.sin_pi_div_two]
  unfold arcminPerRad
  have hπ := Real.pi_ne_zero
  field_simp
  ring

/-- C5 counterexample: with a galaxy distance of zero — a value the code
accepts — every returned distance is 0, so for the concrete off-centre,
off-major-axis target `tgtMajor` the result is not strictly increasing
between inclinations 0 and π/4, refuting the claim as stated. -/
theorem c5_counterexample :
    yp tgtMajor ctrAxis Real.pi ≠ 0 ∧ (0:ℝ) ≤ 0 ∧ (0:ℝ) < Real.pi / 4 ∧
      Real.pi / 4 < Real.pi / 2 ∧
      ¬(correct_rgcVal tgtMajor ctrAxis Real.pi 0 0 true <
          correct_rgcVal tgtMajor ctrAxis Real.pi (Real.pi / 4) 0 true) := by
  have hπ := Real.pi_pos
  refine ⟨by rw [yp_tgtMajor]; norm_num, le_refl 0, by positivity, by linarith, ?_⟩
  unfold correct_rgcVal
  simp

/-- C5 amended: for a fixed target whose minor-axis component `yp` is
nonzero and a strictly positive galaxy distance, the deprojected result is
strictly increasing in the inclination on `[0°, 90°)`. -/
theorem c5_amended (coord glx_ctr : SkyCoordR) (glx_PA glx_dist i1 i2 : ℝ)
    (hyp : yp coord glx_ctr glx_PA ≠ 0) (hd : 0 < glx_dist)
    (h1 : 0 ≤ i1) (h12 : i1 < i2) (h2 : i2 < Real.pi / 2) :
    correct_rgcVal coord glx_ctr glx_PA i1 glx_dist true <
      correct_rgcVal coord glx_ctr glx_PA i2 glx_dist true := by
  have hπ := Real.pi_pos
  have hc2 : 0 < Real.cos i2 :=
    Real.cos_pos_of_mem_Ioo ⟨by linarith, h2⟩
  have hc1 : 0 < Real.cos i1 :=
    Real.cos_pos_of_mem_Ioo ⟨by linarith, by linarith⟩
  have hlt : Real.cos i2 < Real.cos i1 :=
    Real.cos_lt_cos_of_nonneg_of_le_pi h1 (by linarith) h12
  have hY2 : 0 < yp coord glx_ctr glx_PA ^ 2 := sq_pos_of_ne_zero hyp
  have hsq : Real.cos i2 ^ 2 < Real.cos i1 ^ 2 :=
    pow_lt_pow_left₀ hlt (le_of_lt hc2) (by norm_num)
  have hdiv : yp coord glx_ctr glx_PA ^ 2 / Real.cos i1 ^ 2 <
      yp coord glx_ctr glx_PA ^ 2 / Real.cos i2 ^ 2 :=
    div_lt_div_of_pos_left hY2 (by positivity) hsq
  have hrad : obj_radius coord glx_ctr glx_PA i1 true <
      obj_radius coord glx_ctr glx_PA i2 true := by
    unfold obj_radius ypp
    rw [if_pos rfl, if_pos rfl, div_pow, div_pow]
    exact Real.sqrt_lt_sqrt (by positivity) (by linarith)
  unfold correct_rgcVal
  have h := radPerArcmin_pos
  exact mul_lt_mul_of_pos_right
    (mul_lt_mul_of_pos_right hrad radPerArcmin_pos) hd

/-- Witness for the amended C5 at a concrete off-major-axis target with
unit distance, between inclinations 0 and π/4. -/
theorem c5_amended_witness :
    yp tgtMajor ctrAxis Real.pi ≠ 0 ∧ (0:ℝ) < 1 ∧ (0:ℝ) ≤ 0 ∧
      (0:ℝ) < Real.pi / 4 ∧ Real.pi / 4 < Real.pi / 2 ∧
      correct_rgcVal tgtMajor ctrAxis Real.pi 0 1 true <
        correct_rgcVal tgtMajor ctrAxis Real.pi (Real.pi / 4) 1 true :=
  ⟨by rw [yp_tgtMajor]; norm_num, by norm_num, le_refl 0,
   by positivity, by linarith [Real.pi_pos],
   c5_amended tgtMajor ctrAxis Real.pi 1 0 (Real.pi / 4)
     (by rw [yp_tgtMajor]; norm_num) (by norm_num) (le_refl 0)
     (by positivity) (by linarith [Real.pi_pos])⟩

/-- Elementwise (numpy-broadcast) model of `correct_rgc` applied to an array
of coordinates: each intermediate of the source becomes an array, unary
operations and scalar broadcasts map over it, and binary operations combine
aligned entries, exactly as numpy's vectorised arithmetic does. -/
def correct_rgcArr (coords : List SkyCoordR) (glx_ctr : SkyCoordR)
    (glx_PA glx_incl glx_dist : ℝ) (deproject : Bool) : List ℝ :=
  let sky_radiusA := coords.map (fun c => separation glx_ctr c)
  let avg_decA := coords.map (fun c => 0.5 * (glx_ctr.dec + c.dec))
  let xA := List.zipWith (fun c a => (glx_ctr.ra - c.ra) * Real.cos a)
    coords avg_decA
  let yA := coords.map (fun c => glx_ctr.dec - c.dec)
  let phiA := List.zipWith (fun yv xv => glx_PA - Real.pi / 2 +
      Real.arctan ((yv * arcsecPerRad) / (xv * arcsecPerRad))) yA xA
  let xpA := List.zipWith (fun s p => s * Real.cos p * arcminPerRad)
    sky_radiusA phiA
  let ypA := List.zipWith (fun s p => s * Real.sin p * arcminPerRad)
    sky_radiusA phiA
  let yppA := if deproject then ypA.map (fun v => v / Real.cos glx_incl)
    else ypA
  let obj_radiusA := List.zipWith (fun a b => Real.sqrt (a ^ 2 + b ^ 2))
    xpA yppA
  obj_radiusA.map (fun r => r * radPerArcmin * glx_dist)

lemma correct_rgcArr_cons (c : SkyCoordR) (cs : List SkyCoordR)
    (glx_ctr : SkyCoordR) (glx_PA glx_incl glx_dist : ℝ) (deproject : Bool) :
    correct_rgcArr (c :: cs) glx_ctr glx_PA glx_incl glx_dist deproject =
      correct_rgcVal c glx_ctr glx_PA glx_incl glx_dist deproject ::
        correct_rgcArr cs glx_ctr glx_PA glx_incl glx_dist deproject := by
  cases deproject <;>
    simp [correct_rgcArr, correct_rgcVal, obj_radius, xp, yp, ypp, phi,
      sky_radius, x_off, y_off, avg_dec]

/-- C9: the array version of the computation agrees elementwise with the
scalar version — applying the pipeline to a list of `N` coordinates returns
the list of the `N` individual results, in order (so the output has the same
cardinality as the input). -/
theorem c9_array_matches_scalar (coords : List SkyCoordR)
    (glx_ctr : SkyCoordR) (glx_PA glx_incl glx_dist : ℝ) (deproject : Bool) :
    correct_rgcArr coords glx_ctr glx_PA glx_incl glx_dist deproject =
      coords.map
        (fun c => correct_rgcVal c glx_ctr glx_PA glx_incl glx_dist deproject) := by
  induction coords with
  | nil => cases deproject <;> rfl
  | cons c cs ih => rw [correct_rgcArr_cons, ih, List.map_cons]

/-- Degree-to-radian conversion for the concrete scenario constants. -/
def degR (d : ℝ) : ℝ := d * (Real.pi / 180)

/-- Galaxy centre of the spec's concrete scenario: RA 10h42m44.33s
(hours converted at 15° per hour), Dec +41°16′07.5″. -/
def ctrScen : SkyCoordR :=
  ⟨degR ((10 + 42 / 60 + 44.33 / 3600) * 15), degR (41 + 16 / 60 + 7.5 / 3600)⟩

/-- Target of the concrete scenario: same RA as the centre, declination
larger by 0.1°. -/
def tgtScen : SkyCoordR :=
  ⟨degR ((10 + 42 / 60 + 44.33 / 3600) * 15),
   degR (41 + 16 / 60 + 7.5 / 3600 + 0.1)⟩

/-- Position angle 37.7° of the concrete scenario. -/
def paScen : ℝ := degR 37.7

/-- Inclination 77.5° of the concrete scenario. -/
def inclScen : ℝ := degR 77.5

/-- Azimuthal angle produced by the code on the concrete scenario: the
target sits at `x = 0` with `y < 0`, so the arctangent step returns `-π/2`
and `phi = PA - 90° - 90°`. -/
def phiScen : ℝ := paScen - Real.pi / 2 + -(Real.pi / 2)

lemma separation_same_ra (ra d1 d2 : ℝ) (h1 : 0 ≤ d2 - d1)
    (h2 : d2 - d1 ≤ Real.pi) :
    separation ⟨ra, d1⟩ ⟨ra, d2⟩ = d2 - d1 := by
  unfold separation
  have h : Real.sin d1 * Real.sin d2 +
      Real.cos d1 * Real.cos d2 * Real.cos (ra - ra) = Real.cos (d2 - d1) := by
    rw [show ra - ra = (0:ℝ) by ring, Real.cos_zero, Real.cos_sub]
    ring
  rw [h]
  exact Real.arccos_cos h1 h2

lemma tgtScen_eq : tgtScen = ⟨ctrScen.ra, ctrScen.dec + Real.pi / 1800⟩ := by
  unfold tgtScen ctrScen degR
  simp only [SkyCoordR.mk.injEq]
  constructor
  · trivial
  · ring

lemma sky_radius_scen : sky_radius tgtScen ctrScen = Real.pi / 1800 := by
  have hπ := Real.pi_pos
  have h := separation_same_ra ctrScen.ra ctrScen.dec
    (ctrScen.dec + Real.pi / 1800) (by linarith) (by linarith)
  have h2 : ctrScen.dec + Real.pi / 1800 - ctrScen.dec = Real.pi / 1800 := by
    ring
  rw [h2] at h
  unfold sky_radius
  rw [tgtScen_eq]
  exact h

lemma x_off_scen : x_off tgtScen ctrScen = 0 := by
  rw [tgtScen_eq]
  simp [x_off]

lemma y_off_scen : y_off tgtScen ctrScen = -(Real.pi / 1800) := by
  rw [tgtScen_eq]
  simp [y_off]

lemma phiE_scen : phiE tgtScen ctrScen paScen = RVal.fin phiScen := by
  have hyneg : y_off tgtScen ctrScen * arcsecPerRad < 0 := by
    rw [y_off_scen]
    have h1 := arcsecPerRad_pos
    have h2 := Real.pi_pos
    nlinarith
  unfold phiE atanStepE ratioE
  rw [x_off_scen, zero_mul, RVal.div_fin_zero_of_neg hyneg, RVal.arctan_ninf,
    RVal.add_fin_fin]
  rfl

lemma arcmin_conv (t : ℝ) : Real.pi / 1800 * t * arcminPerRad = 6 * t := by
  unfold arcminPerRad
  have hπ := Real.pi_ne_zero
  field_simp
  ring

lemma xpE_scen : xpE tgtScen ctrScen paScen = RVal.fin (6 * Real.cos phiScen) := by
  unfold xpE
  rw [phiE_scen, RVal.cos_fin, sky_radius_scen, RVal.mul_fin_fin,
    RVal.mul_fin_fin, arcmin_conv]

lemma ypE_scen : ypE tgtScen ctrScen paScen = RVal.fin (6 * Real.sin phiScen) := by
  unfold ypE
  rw [phiE_scen, RVal.sin_fin, sky_radius_scen, RVal.mul_fin_fin,
    RVal.mul_fin_fin, arcmin_conv]

lemma cos_inclScen_pos : 0 < Real.cos inclScen := by
  apply Real.cos_pos_of_mem_Ioo
  constructor
  · unfold inclScen degR
    nlinarith [Real.pi_pos]
  · unfold inclScen degR
    nlinarith [Real.pi_pos]

lemma sin_inclScen_pos : 0 < Real.sin inclScen := by
  apply Real.sin_pos_of_pos_of_lt_pi
  · unfold inclScen degR
    nlinarith [Real.pi_pos]
  · unfold inclScen degR
    nlinarith [Real.pi_pos]

lemma cos_inclScen_sq_lt_one : Real.cos inclScen ^ 2 < 1 := by
  have h1 := Real.sin_sq_add_cos_sq inclScen
  have h2 := sin_inclScen_pos
  nlinarith

lemma cos_inclScen_lb : 1 / 100 < Real.cos inclScen := by
  have hw : Real.cos inclScen = Real.sin (Real.pi / 2 - inclScen) :=
    (Real.sin_pi_div_two_sub inclScen).symm
  have hlb : (0.21 : ℝ) < Real.pi / 2 - inclScen := by
    unfold inclScen degR
    nlinarith [Real.pi_gt_d2]
  have hub : Real.pi / 2 - inclScen ≤ 1 := by
    unfold inclScen degR
    nlinarith [Real.pi_lt_d2]
  have hpos : (0 : ℝ) < Real.pi / 2 - inclScen := by linarith
  have hsin := Real.sin_gt_sub_cube hpos hub
  have hsq1 : (Real.pi / 2 - inclScen) ^ 2 ≤ 1 := by nlinarith
  have hcube : (Real.pi / 2 - inclScen) ^ 3 ≤ Real.pi / 2 - inclScen := by
    nlinarith [mul_le_mul_of_nonneg_left hsq1 (le_of_lt hpos)]
  rw [hw]
  nlinarith

lemma sin_phiScen_ne : Real.sin phiScen ≠ 0 := by
  have hval : phiScen = -(1423 / 1800) * Real.pi := by
    unfold phiScen paScen degR
    ring
  rw [hval]
  intro h
  rw [Real.sin_eq_zero_iff] at h
  obtain ⟨n, hn⟩ := h
  have hn' : (n : ℝ) = -(1423 / 1800) := mul_right_cancel₀ Real.pi_ne_zero hn
  have hz : (1800 * n : ℤ) = -1423 := by
    exact_mod_cast (by linarith : (1800 : ℝ) * n = -1423)
  omega

/-- Radicand of the deprojected radius on the concrete scenario. -/
def Tscen : ℝ :=
  6 * Real.cos phiScen * (6 * Real.cos phiScen) +
    6 * Real.sin phiScen / Real.cos inclScen *
      (6 * Real.sin phiScen / Real.cos inclScen)

lemma sqrt_thirty_six : Real.sqrt 36 = 6 := by
  rw [show (36:ℝ) = 6 ^ 2 by norm_num, Real.sqrt_sq (by norm_num : (0:ℝ) ≤ 6)]

lemma projE_scen :
    correct_rgcE tgtScen ctrScen paScen inclScen 783 false =
      RVal.fin (6 * radPerArcmin * 783) := by
  have hypp : yppE tgtScen ctrScen paScen inclScen false =
      ypE tgtScen ctrScen paScen := rfl
  have h36 : 6 * Real.cos phiScen * (6 * Real.cos phiScen) +
      6 * Real.sin phiScen * (6 * Real.sin phiScen) = 36 := by
    linear_combination (36 : ℝ) * Real.sin_sq_add_cos_sq phiScen
  unfold correct_rgcE obj_radiusE
  rw [hypp, xpE_scen, ypE_scen, RVal.mul_fin_fin, RVal.mul_fin_fin,
    RVal.add_fin_fin, h36,
    RVal.sqrt_fin_of_nonneg (by norm_num : (0:ℝ) ≤ 36), sqrt_thirty_six,
    RVal.mul_fin_fin, RVal.mul_fin_fin]

lemma deprojE_scen :
    correct_rgcE tgtScen ctrScen paScen inclScen 783 true =
      RVal.fin (Real.sqrt Tscen * radPerArcmin * 783) := by
  have hci := cos_inclScen_pos
  have hypp : yppE tgtScen ctrScen paScen inclScen true =
      RVal.fin (6 * Real.sin phiScen / Real.cos inclScen) := by
    unfold yppE
    rw [if_pos rfl, ypE_scen, RVal.div_fin_fin_of_ne _ (ne_of_gt hci)]
  have hT : 0 ≤ Tscen := by
    have h : Tscen = (6 * Real.cos phiScen) ^ 2 +
        (6 * Real.sin phiScen / Real.cos inclScen) ^ 2 := by
      unfold Tscen
      ring
    rw [h]
    positivity
  unfold correct_rgcE obj_radiusE
  rw [hypp, xpE_scen, RVal.mul_fin_fin, RVal.mul_fin_fin, RVal.add_fin_fin,
    show 6 * Real.cos phiScen * (6 * Real.cos phiScen) +
      6 * Real.sin phiScen / Real.cos inclScen *
        (6 * Real.sin phiScen / Real.cos inclScen) = Tscen from rfl,
    RVal.sqrt_fin_of_nonneg hT, RVal.mul_fin_fin, RVal.mul_fin_fin]

lemma Tscen_gt_36 : 36 < Tscen := by
  have hci := cos_inclScen_pos
  have hci2 := cos_inclScen_sq_lt_one
  have hs2 : 0 < Real.sin phiScen ^ 2 := sq_pos_of_ne_zero sin_phiScen_ne
  have hTalt : Tscen = 36 * Real.cos phiScen ^ 2 +
      36 * (Real.sin phiScen ^ 2 / Real.cos inclScen ^ 2) := by
    unfold Tscen
    ring
  have hkey : Real.sin phiScen ^ 2 <
      Real.sin phiScen ^ 2 / Real.cos inclScen ^ 2 := by
    rw [lt_div_iff₀ (pow_pos hci 2)]
    nlinarith
  have hpyth := Real.sin_sq_add_cos_sq phiScen
  rw [hTalt]
  nlinarith

lemma Tscen_ub : Tscen < 360036 := by
  have hci := cos_inclScen_pos
  have hlb := cos_inclScen_lb
  have hpyth := Real.sin_sq_add_cos_sq phiScen
  have hc2 : Real.cos phiScen ^ 2 ≤ 1 := by nlinarith [sq_nonneg (Real.sin phiScen)]
  have hs2 : Real.sin phiScen ^ 2 ≤ 1 := by nlinarith [sq_nonneg (Real.cos phiScen)]
  have hpow : ((1:ℝ) / 100) ^ 2 < Real.cos inclScen ^ 2 :=
    pow_lt_pow_left₀ hlb (by norm_num) (by norm_num)
  have hfrac : Real.sin phiScen ^ 2 / Real.cos inclScen ^ 2 ≤
      1 / Real.cos inclScen ^ 2 :=
    (div_le_div_iff_of_pos_right (pow_pos hci 2)).mpr hs2
  have hinv : 1 / Real.cos inclScen ^ 2 < 10000 := by
    rw [div_lt_iff₀ (pow_pos hci 2)]
    nlinarith
  have hTalt : Tscen = 36 * Real.cos phiScen ^ 2 +
      36 * (Real.sin phiScen ^ 2 / Real.cos inclScen ^ 2) := by
    unfold Tscen
    ring
  rw [hTalt]
  nlinarith

/-- C10: on the spec's concrete scenario (centre RA 10h42m44.33s,
Dec +41°16′07.5″, position angle 37.7°, inclination 77.5°, distance 783 kpc,
target offset +0.1° in declination), both results are finite, the projected
and deprojected distances are positive, the deprojected one is strictly
larger, and both are strictly below the 783 kpc galaxy distance. -/
theorem c10_concrete_scenario :
    ∃ dv pv : ℝ,
      correct_rgcE tgtScen ctrScen paScen inclScen 783 true = RVal.fin dv ∧
      correct_rgcE tgtScen ctrScen paScen inclScen 783 false = RVal.fin pv ∧
      0 < pv ∧ pv < dv ∧ dv < 783 := by
  refine ⟨Real.sqrt Tscen * radPerArcmin * 783, 6 * radPerArcmin * 783,
    deprojE_scen, projE_scen, ?_, ?_, ?_⟩
  · have hk := radPerArcmin_pos
    positivity
  · have h6 : (6:ℝ) < Real.sqrt Tscen := by
      rw [show (6:ℝ) = Real.sqrt 36 from sqrt_thirty_six.symm]
      exact Real.sqrt_lt_sqrt (by norm_num) Tscen_gt_36
    exact mul_lt_mul_of_pos_right
      (mul_lt_mul_of_pos_right h6 radPerArcmin_pos) (by norm_num)
  · have hπ := Real.pi_pos
    have hq : (2700:ℝ) < 10800 / Real.pi := by
      rw [lt_div_iff₀ hπ]
      nlinarith [Real.pi_lt_four]
    have hq2 : (2700:ℝ) ^ 2 < (10800 / Real.pi) ^ 2 :=
      pow_lt_pow_left₀ hq (by norm_num) (by norm_num)
    have hR : Real.sqrt Tscen < 10800 / Real.pi := by
      rw [Real.sqrt_lt' (by positivity)]
      nlinarith [Tscen_ub]
    have hk1 : Real.sqrt Tscen * radPerArcmin < 1 := by
      unfold radPerArcmin
      rw [show Real.sqrt Tscen * (Real.pi / 10800) =
        Real.sqrt Tscen * Real.pi / 10800 by ring,
        div_lt_one (by norm_num : (0:ℝ) < 10800)]
      calc Real.sqrt Tscen * Real.pi < 10800 / Real.pi * Real.pi :=
            mul_lt_mul_of_pos_right hR hπ
        _ = 10800 := by field_simp
    nlinarith [hk1, Real.sqrt_nonneg Tscen, radPerArcmin_pos]

/-- The planar-radius step is a square root, so it can only produce a
non-negative finite value, `+∞`, or NaN — never a negative finite value and
never `-∞`. -/
lemma obj_radiusE_cases (coord glx_ctr : SkyCoordR) (glx_PA glx_incl : ℝ)
    (deproject : Bool) :
    (∃ s, obj_radiusE coord glx_ctr glx_PA glx_incl deproject = RVal.fin s ∧
        0 ≤ s) ∨
      obj_radiusE coord glx_ctr glx_PA glx_incl deproject = RVal.inf ∨
      obj_radiusE coord glx_ctr glx_PA glx_incl deproject = RVal.nan := by
  unfold obj_radiusE
  cases h : RVal.add
      (RVal.mul (xpE coord glx_ctr glx_PA) (xpE coord glx_ctr glx_PA))
      (RVal.mul (yppE coord glx_ctr glx_PA glx_incl deproject)
        (yppE coord glx_ctr glx_PA glx_incl deproject)) with
  | fin a =>
      by_cases ha : a < 0
      · exact Or.inr (Or.inr (by simp [RVal.sqrt, ha]))
      · exact Or.inl ⟨Real.sqrt a, by simp [RVal.sqrt, ha], Real.sqrt_nonneg a⟩
  | inf => exact Or.inr (Or.inl rfl)
  | ninf => exact Or.inr (Or.inr rfl)
  | nan => exact Or.inr (Or.inr rfl)

/-- C7 counterexample: at a concrete input with the coordinate equal to the
galaxy centre — a valid input with non-negative distance 783 — the returned
value is NaN, not a (non-negative) length, refuting the claim as stated. -/
theorem c7_counterexample :
    (0:ℝ) ≤ 783 ∧
      ¬∃ r : ℝ, correct_rgcE ctrAxis ctrAxis 1 1 783 true = RVal.fin r := by
  refine ⟨by norm_num, ?_⟩
  rintro ⟨r, hr⟩
  rw [rgcE_center_nan ctrAxis 1 1 783 true] at hr
  exact RVal.noConfusion hr

/-- C7 amended: with a non-negative galaxy distance, whenever the code
returns an ordinary finite value that value is non-negative, and the
returned `Distance` carries the unit of the supplied galaxy distance; at the
singular inputs the returned value is a NaN/±∞ sentinel instead of a
length. -/
theorem c7_amended (coord glx_ctr : SkyCoordR) (glx_PA glx_incl : ℝ)
    (glx_dist : DistanceQ) (deproject : Bool) (r : ℝ)
    (hd : 0 ≤ glx_dist.val)
    (hr : correct_rgcE coord glx_ctr glx_PA glx_incl glx_dist.val deproject =
      RVal.fin r) :
    0 ≤ r ∧
      (correct_rgc coord glx_ctr glx_PA glx_incl glx_dist deproject).unit =
        glx_dist.unit := by
  refine ⟨?_, rfl⟩
  unfold correct_rgcE at hr
  rcases obj_radiusE_cases coord glx_ctr glx_PA glx_incl deproject with
    ⟨s, hs, hs0⟩ | h | h
  · rw [hs, RVal.mul_fin_fin, RVal.mul_fin_fin] at hr
    injection hr with h'
    rw [← h']
    exact mul_nonneg (mul_nonneg hs0 (le_of_lt radPerArcmin_pos)) hd
  · rw [h] at hr
    have hinf : RVal.mul RVal.inf (RVal.fin radPerArcmin) = RVal.inf := by
      rw [show RVal.mul RVal.inf (RVal.fin radPerArcmin) =
        if 0 < radPerArcmin then RVal.inf
        else if radPerArcmin < 0 then RVal.ninf else RVal.nan from rfl,
        if_pos radPerArcmin_pos]
    rw [hinf] at hr
    have hnf := mul_fin_notFin (show RVal.inf.isFin = false from rfl)
      glx_dist.val
    rw [hr] at hnf
    simp [RVal.isFin] at hnf
  · rw [h, RVal.nan_mul, RVal.nan_mul] at hr
    exact RVal.noConfusion hr

/-- Witness for the amended C7 on the concrete scenario's projected branch,
whose finite return value is known exactly. -/
theorem c7_amended_witness :
    (0:ℝ) ≤ 783 ∧
      correct_rgcE tgtScen ctrScen paScen inclScen 783 false =
        RVal.fin (6 * radPerArcmin * 783) ∧
      (0 ≤ 6 * radPerArcmin * 783 ∧
        (correct_rgc tgtScen ctrScen paScen inclScen ⟨783, "kpc"⟩ false).unit =
          "kpc") :=
  ⟨by norm_num, projE_scen,
   c7_amended tgtScen ctrScen paScen inclScen ⟨783, "kpc"⟩ false
     (6 * radPerArcmin * 783) (by norm_num) projE_scen⟩

end GalRadii
